import Mathlib

/-!
Verification of the EINSim aggregation/inference scripts.

The Python sources are embedded shallowly:
* strings are `List Char` (`PyStr`), matching Python's per-character string
  operations (`split`, `strip`, slicing);
* dictionaries are association lists in insertion order, with Python's
  "later assignment wins" update semantics;
* machine floats used by the scripts only ever hold exact small rationals
  (integer sums and single divisions), so rate arithmetic is embedded in `ℚ`;
* a fallible Python expression is embedded in `Except PyErr`; an exception
  raised by CPython (including `NameError` / `UnboundLocalError` for
  identifiers that are not in scope at the point of use) becomes an
  `Except.error` value.
-/

set_option autoImplicit false

namespace EINSim

/-- Python strings, represented character by character. -/
abbrev PyStr := List Char

/-- The Python exceptions that the embedded code can raise. -/
inductive PyErr where
  | valueError (msg : String)
  | assertionError (msg : String)
  | nameError (name : String)
  | unboundLocalError (name : String)
  | typeError (msg : String)
  | keyError
  | indexError
  | zeroDivisionError
  | jsonDecodeError
  | keyboardInterrupt
  deriving DecidableEq, Repr

/-- Exceptions that `parse_einsim_output_line` (new format) can raise; a
strict subset of `PyErr` (in particular it never raises
`KeyboardInterrupt`, which is an asynchronous signal). -/
inductive ParseErr where
  | valueError (msg : String)
  | assertionError (msg : String)
  | nameError (name : String)
  | unboundLocalError (name : String)
  deriving DecidableEq, Repr

/-- Inclusion of parser exceptions into the full exception type. -/
def PyErr.ofParseErr : ParseErr → PyErr
  | .valueError m => .valueError m
  | .assertionError m => .assertionError m
  | .nameError n => .nameError n
  | .unboundLocalError n => .unboundLocalError n

instance {ε α : Type} [DecidableEq ε] [DecidableEq α] : DecidableEq (Except ε α) := fun
  | .ok a, .ok b => decidable_of_iff (a = b) (by simp)
  | .ok _, .error _ => isFalse (by simp)
  | .error _, .ok _ => isFalse (by simp)
  | .error e, .error f => decidable_of_iff (e = f) (by simp)

/-- Does `needle` occur at the start of `hay`?  (Python `str.startswith`.) -/
def pyStartsWith : PyStr → PyStr → Bool
  | [], _ => true
  | _ :: _, [] => false
  | a :: as, b :: bs => a == b && pyStartsWith as bs

/-- Substring containment (Python's `in` operator on strings). -/
def pyContains (needle : PyStr) : PyStr → Bool
  | [] => pyStartsWith needle []
  | h :: t => pyStartsWith needle (h :: t) || pyContains needle t

/-- Python `str.split(sep)` for a single-character separator: splits at every
occurrence of the separator and keeps empty pieces. -/
def pySplit (sep : Char) : PyStr → List PyStr
  | [] => [[]]
  | c :: rest =>
      let r := pySplit sep rest
      if c = sep then [] :: r
      else match r with
        | [] => [[c]]
        | piece :: pieces => (c :: piece) :: pieces

/-- Python `str.split(sep, 1)`: split at the first occurrence only. -/
def pySplitOnce (sep : Char) : PyStr → List PyStr
  | [] => [[]]
  | c :: rest =>
      if c = sep then [[], rest]
      else match pySplitOnce sep rest with
        | [] => [[c]]
        | piece :: pieces => (c :: piece) :: pieces

/-- The characters Python's `str.strip()` removes. -/
def pyIsSpace (c : Char) : Bool :=
  c = ' ' || c = '\t' || c = '\n' || c = '\r' || c = '\x0b' || c = '\x0c'

/-- Python `str.strip()`. -/
def pyStrip (s : PyStr) : PyStr :=
  ((s.dropWhile pyIsSpace).reverse.dropWhile pyIsSpace).reverse

/-- Python `int(s)` restricted to the lexical forms the data files use: an
optional sign followed by one or more decimal digits.  Anything else raises
`ValueError`. -/
def pyInt (s : PyStr) : Except PyErr Int :=
  let core : PyStr → Except PyErr Nat := fun ds =>
    if ds = [] then .error (.valueError "invalid literal for int")
    else if ds.all (fun c => c.isDigit) then
      .ok (ds.foldl (fun acc c => acc * 10 + (c.toNat - '0'.toNat)) 0)
    else .error (.valueError "invalid literal for int")
  match s with
  | '-' :: ds => (core ds).map (fun n => -(n : Int))
  | '+' :: ds => (core ds).map (fun n => (n : Int))
  | ds => (core ds).map (fun n => (n : Int))

/-- Digits of a natural number, most significant first. -/
def natDigits (n : Nat) : PyStr :=
  (Nat.toDigits 10 n)

/-- Python `str(i)` for an integer. -/
def pyIntStr (i : Int) : PyStr :=
  if i < 0 then '-' :: natDigits i.natAbs else natDigits i.natAbs

/-- Decimal rendering of the rational held by a Python float.  Stands in for
CPython's float `repr`; it is injective on values, which is all the embedded
code relies on (the rendered rate only ever flows into identity strings that
the claims treat as opaque). -/
def pyRatStr (q : ℚ) : PyStr :=
  if q.den = 1 then pyIntStr q.num
  else pyIntStr q.num ++ ('/' :: natDigits q.den)

/-- Python `float(s)` for the scientific/decimal literals appearing in the
data files: optional sign, digits with optional fractional part, optional
exponent.  The exact rational value is retained (the embedded scripts only
ever carry such a float into identity strings, never back into arithmetic).
The value is assembled from integer arithmetic and one `Rat.divInt` so that
it evaluates inside the kernel. -/
def pyFloat (s : PyStr) : Except PyErr ℚ :=
  let digitsVal : PyStr → Nat := fun ds =>
    ds.foldl (fun acc c => acc * 10 + (c.toNat - '0'.toNat)) 0
  let allDigits : PyStr → Bool := fun ds => ds.all (fun c => c.isDigit)
  -- mantissa as (numerator, number of fractional digits)
  let parseMantissa : PyStr → Option (Nat × Nat) := fun m =>
    match pySplit '.' m with
    | [ip] =>
        if ip ≠ [] ∧ allDigits ip then some (digitsVal ip, 0) else none
    | [ip, fp] =>
        if (ip ≠ [] ∨ fp ≠ []) ∧ allDigits ip ∧ allDigits fp then
          some (digitsVal ip * 10 ^ fp.length + digitsVal fp, fp.length)
        else none
    | _ => none
  let parseSigned : PyStr → Option (Int × Nat) := fun m =>
    match m with
    | '-' :: rest => (parseMantissa rest).map (fun p => (-(p.1 : Int), p.2))
    | '+' :: rest => (parseMantissa rest).map (fun p => ((p.1 : Int), p.2))
    | rest => (parseMantissa rest).map (fun p => ((p.1 : Int), p.2))
  let parseExp : PyStr → Option Int := fun e =>
    match e with
    | '-' :: ds => if ds ≠ [] ∧ allDigits ds then some (-(digitsVal ds : Int)) else none
    | '+' :: ds => if ds ≠ [] ∧ allDigits ds then some ((digitsVal ds : Int)) else none
    | ds => if ds ≠ [] ∧ allDigits ds then some ((digitsVal ds : Int)) else none
  let split : List PyStr :=
    match pySplit 'e' s with
    | [one] => pySplit 'E' one
    | more => more
  match split with
  | [m] =>
      match parseSigned m with
      | some (n, k) => .ok (Rat.divInt n ((10 : Int) ^ k))
      | none => .error (.valueError "could not convert string to float")
  | [m, e] =>
      match parseSigned m, parseExp e with
      | some (n, k), some ex =>
          if 0 ≤ ex then .ok (Rat.divInt (n * (10 : Int) ^ ex.natAbs) ((10 : Int) ^ k))
          else .ok (Rat.divInt n ((10 : Int) ^ (k + ex.natAbs)))
      | _, _ => .error (.valueError "could not convert string to float")
  | _ => .error (.valueError "could not convert string to float")

/-- Python float division `a / float(b)` on integer operands: raises
`ZeroDivisionError` on a zero denominator, otherwise the exact quotient
(the scripts never feed a value for which the float quotient would be
inexact back into further arithmetic). -/
def pyDiv (a b : Int) : Except PyErr ℚ :=
  if b = 0 then .error .zeroDivisionError else .ok (Rat.divInt a b)

/-- Lookup in a Python dictionary represented as an insertion-ordered
association list. -/
def alGet {κ β : Type} [BEq κ] (d : List (κ × β)) (k : κ) : Option β :=
  (d.find? (fun e => e.1 == k)).map (fun e => e.2)

/-- Assignment `d[k] = v` in a Python dictionary: an existing key keeps its
position, a new key is appended. -/
def alSet {κ β : Type} [BEq κ] (d : List (κ × β)) (k : κ) (v : β) : List (κ × β) :=
  if (d.find? (fun e => e.1 == k)).isSome then
    d.map (fun e => if e.1 == k then (k, v) else e)
  else d ++ [(k, v)]

/-- `l[i]`, raising `IndexError` when out of range. -/
def getTok (l : List PyStr) (i : Nat) : Except PyErr PyStr :=
  match l.get? i with
  | some t => .ok t
  | none => .error .indexError

/-- Tuple unpacking `n_errs, re_count, ue_count = map(int, entry)`: CPython
pulls (and converts) items one at a time, so `int` conversion errors on the
first three items (or on a fourth, extra item) surface before the arity
`ValueError`. -/
def pyUnpack3Ints (e : List PyStr) : Except PyErr (Int × Int × Int) :=
  match e with
  | [a, b, c] => do
      let x ← pyInt a
      let y ← pyInt b
      let z ← pyInt c
      return (x, y, z)
  | [] => .error (.valueError "not enough values to unpack")
  | [a] => do
      let _ ← pyInt a
      .error (.valueError "not enough values to unpack")
  | [a, b] => do
      let _ ← pyInt a
      let _ ← pyInt b
      .error (.valueError "not enough values to unpack")
  | a :: b :: c :: d :: _ => do
      let _ ← pyInt a
      let _ ← pyInt b
      let _ ← pyInt c
      let _ ← pyInt d
      .error (.valueError "too many values to unpack")

/-! ## The flat-format utilities (`src/script/utils.py`)

This module parses the positional `[DATA] <CAT>: p:... t:... ...` line format
and aggregates histograms per run identity (`parse_all_files`). -/

namespace OldFormat

/-- The 13-element metadata list of `parse_einsim_output_line`
(`src/script/utils.py` line 115):
`[ecc_category, p, t, k, n, m, rber, bl, bcl, ps, ed, cd, dp]`. -/
structure OldMeta where
  ecc_category : PyStr
  p : Int
  t : Int
  k : Int
  n : Int
  m : Int
  rber : ℚ
  bl : Int
  bcl : Int
  ps : Int
  ed : PyStr
  cd : PyStr
  dp : PyStr
  deriving DecidableEq, Repr

/-- The 12-element `all_metadata` list with the permutation `p` omitted
(`parse_all_files` line 228). -/
structure OldMetaNoP where
  ecc_category : PyStr
  t : Int
  k : Int
  n : Int
  m : Int
  rber : ℚ
  bl : Int
  bcl : Int
  ps : Int
  ed : PyStr
  cd : PyStr
  dp : PyStr
  deriving DecidableEq, Repr

def stripP (md : OldMeta) : OldMetaNoP :=
  { ecc_category := md.ecc_category, t := md.t, k := md.k, n := md.n, m := md.m,
    rber := md.rber, bl := md.bl, bcl := md.bcl, ps := md.ps,
    ed := md.ed, cd := md.cd, dp := md.dp }

/-- Result `[metadata, data]` of the flat-format line parser.  `data` keeps
the raw `entry.split(':')` pieces: the `map(int, ...)` of line 116 is lazy in
Python, so integer conversion happens only when the aggregation loop unpacks
a triple. -/
structure OldParsed where
  metadata : OldMeta
  data : List (List PyStr)
  deriving DecidableEq, Repr

/-- `parse_einsim_output_line` of `src/script/utils.py` (lines 47-122).
The guard on line 48 is the chained comparison
`line[:6] == "[DATA]" in line`, i.e.
`line[:6] == "[DATA]" and "[DATA]" in line`. -/
def parse_einsim_output_line (line : PyStr) : Except PyErr (Option OldParsed) :=
  if 6 < line.length ∧ line.take 6 = "[DATA]".data ∧ pyContains "[DATA]".data line then do
    let parts := pySplit '[' (pyStrip (line.drop 7))
    let (meta, raw_data) ← (match parts with
      | [a, b] => Except.ok (a, b)
      | l => if l.length < 2 then Except.error (PyErr.valueError "not enough values to unpack")
             else Except.error (PyErr.valueError "too many values to unpack"))
    let meta_split := pySplit ' ' meta
    let ecc_category := (meta_split.headD []).dropLast
    let md ←
      if ecc_category = "REP".data ∨ ecc_category = "HSC".data then do
        let p ← pyInt ((← getTok meta_split 1).drop 2)
        let t ← pyInt ((← getTok meta_split 2).drop 2)
        let k ← pyInt ((← getTok meta_split 3).drop 2)
        let n ← pyInt ((← getTok meta_split 4).drop 2)
        let rber ← pyFloat ((← getTok meta_split 5).drop 5)
        let bl ← pyInt ((← getTok meta_split 6).drop 3)
        let bcl ← pyInt ((← getTok meta_split 7).drop 4)
        let ps ← pyInt ((← getTok meta_split 8).drop 3)
        let ed := (← getTok meta_split 9).drop 3
        let cd := (← getTok meta_split 10).drop 3
        let dp := (← getTok meta_split 11).drop 3
        Except.ok (some (OldMeta.mk ecc_category p t k n (-1) rber bl bcl ps ed cd dp))
      else if ecc_category = "BCH".data then do
        let p ← pyInt ((← getTok meta_split 1).drop 2)
        let t ← pyInt ((← getTok meta_split 2).drop 2)
        let k ← pyInt ((← getTok meta_split 3).drop 2)
        let n ← pyInt ((← getTok meta_split 4).drop 2)
        let m ← pyInt ((← getTok meta_split 5).drop 2)
        let rber ← pyFloat ((← getTok meta_split 6).drop 5)
        let bl ← pyInt ((← getTok meta_split 7).drop 3)
        let bcl ← pyInt ((← getTok meta_split 8).drop 4)
        let ps ← pyInt ((← getTok meta_split 9).drop 3)
        let ed := (← getTok meta_split 10).drop 3
        let cd := (← getTok meta_split 11).drop 3
        let dp := (← getTok meta_split 12).drop 3
        Except.ok (some (OldMeta.mk ecc_category p t k n m rber bl bcl ps ed cd dp))
      else if ecc_category = "UNK".data then do
        let p ← pyInt ((← getTok meta_split 1).drop 2)
        let t ← pyInt ((← getTok meta_split 2).drop 2)
        let k ← pyInt ((← getTok meta_split 3).drop 2)
        let n ← pyInt ((← getTok meta_split 4).drop 2)
        let tok5 ← getTok meta_split 5
        let c5 ← (match tok5 with
          | [] => Except.error PyErr.indexError
          | c :: _ => Except.ok c)
        let (m, off) ← (if c5 = 'm' then do
            let m ← pyInt (tok5.drop 2)
            Except.ok (m, 1)
          else Except.ok ((-1 : Int), 0))
        let rber ← pyFloat ((← getTok meta_split (5 + off)).drop 5)
        let bl ← pyInt ((← getTok meta_split (6 + off)).drop 3)
        let bcl ← pyInt ((← getTok meta_split (7 + off)).drop 4)
        let ps ← pyInt ((← getTok meta_split (8 + off)).drop 3)
        let ed := (← getTok meta_split (9 + off)).drop 3
        let cd := (← getTok meta_split (10 + off)).drop 3
        let dp := (← getTok meta_split (11 + off)).drop 3
        Except.ok (some (OldMeta.mk ecc_category p t k n m rber bl bcl ps ed cd dp))
      else
        -- line 111: the warning print references `line_num` (and `infilename`),
        -- neither of which is in scope inside this function: NameError.
        Except.error (PyErr.nameError "line_num")
    match md with
    | none => return none
    | some md =>
        let data := ((pySplit ' ' raw_data).filter (fun e => e.contains ':')).map (pySplit ':')
        return some { metadata := md, data := data }
  else
    return none

/-- `run_uid_from_metadata` of `src/script/utils.py` (lines 157-207). -/
def run_uid_from_metadata (md : OldMeta) : PyStr :=
  if md.ecc_category = "REP".data ∨ md.ecc_category = "HSC".data then
    "[DATA]".data ++ " ".data ++ md.ecc_category ++ ":".data
      ++ " p:".data ++ "-1".data
      ++ " t:".data ++ pyIntStr md.t
      ++ " k:".data ++ pyIntStr md.k
      ++ " n:".data ++ pyIntStr md.n
      ++ " rber:".data ++ pyRatStr md.rber
      ++ " bl:".data ++ pyIntStr md.bl
      ++ " bcl:".data ++ pyIntStr md.bcl
      ++ " ps:".data ++ pyIntStr md.ps
      ++ " ed:".data ++ md.ed
      ++ " cd:".data ++ md.cd
      ++ " dp:".data ++ md.dp
  else if md.ecc_category = "BCH".data then
    "[DATA]".data ++ " BCH:".data
      ++ " p:".data ++ "-1".data
      ++ " t:".data ++ pyIntStr md.t
      ++ " k:".data ++ pyIntStr md.k
      ++ " n:".data ++ pyIntStr md.n
      ++ " m:".data ++ pyIntStr md.m
      ++ " rber:".data ++ pyRatStr md.rber
      ++ " bl:".data ++ pyIntStr md.bl
      ++ " bcl:".data ++ pyIntStr md.bcl
      ++ " ps:".data ++ pyIntStr md.ps
      ++ " ed:".data ++ md.ed
      ++ " cd:".data ++ md.cd
      ++ " dp:".data ++ md.dp
  else if md.ecc_category = "UNK".data then
    "[DATA]".data ++ " UNK:".data ++ " bl:".data ++ pyIntStr md.bl
  else
    "[DATA]".data

/-- Per-line loop of `parse_einsim_output_file` (lines 128-150): each line is
parsed under a handler that re-raises `KeyboardInterrupt` and swallows (after
logging once per file) every other exception. -/
def parse_file_loop : List PyStr → List OldParsed → Except PyErr (List OldParsed)
  | [], acc => .ok acc
  | l :: rest, acc =>
      match parse_einsim_output_line l with
      | .error .keyboardInterrupt => .error .keyboardInterrupt
      | .error _ => parse_file_loop rest acc
      | .ok none => parse_file_loop rest acc
      | .ok (some r) => parse_file_loop rest (acc ++ [r])

/-- `parse_einsim_output_file` restricted to its pure content (the file is
given as its list of lines; sizes and progress printing are I/O only). -/
def parse_einsim_output_file (lines : List PyStr) : Except PyErr (List OldParsed) :=
  parse_file_loop lines []

/-- One per-identity accumulation group of `parse_all_files`
(lines 229-232): first-seen metadata, plus the per-run data and permutation
lists. -/
structure OldGroup where
  metadata : OldMetaNoP
  data : List (List (List PyStr))
  p : List Int
  deriving DecidableEq, Repr

/-- Lines 221-232 of `parse_all_files`: group a parsed record under its
(unmasked, possibly experiment-suffixed) run identity. -/
def addRun (acc : List (PyStr × OldGroup)) (uid : PyStr) (md : OldMeta)
    (data : List (List PyStr)) : List (PyStr × OldGroup) :=
  match alGet acc uid with
  | none => acc ++ [(uid, { metadata := stripP md, data := [data], p := [md.p] })]
  | some g => alSet acc uid { g with data := g.data ++ [data], p := g.p ++ [md.p] }

/-- Phase 1 of `parse_all_files` (lines 215-232): walk the parsed records in
file order, appending the strictly increasing `_experiment_<n>` suffix when
the input is experimental. -/
def gatherRuns : List OldParsed → Bool → Int → List (PyStr × OldGroup) →
    List (PyStr × OldGroup)
  | [], _, _, acc => acc
  | r :: rest, experimental, eid, acc =>
      let uid0 := run_uid_from_metadata r.metadata
      let uid := if experimental then uid0 ++ "_experiment_".data ++ pyIntStr eid else uid0
      gatherRuns rest experimental (if experimental then eid + 1 else eid)
        (addRun acc uid r.metadata r.data)

/-- The three histograms accumulated by lines 240-259. -/
structure HistState where
  raw : List (Int × (Int × Int))
  re : List (Int × Int)
  ue : List (Int × Int)
  deriving DecidableEq, Repr

/-- Loop body for one `(n_errs, re_count, ue_count)` triple
(lines 244-259): update the raw histogram, then the repair-event histogram
(bound-checked against `bcl`), then the uncorrectable-event histogram
(bound-checked against `bl`). -/
def processTriple (bl bcl : Int) (st : HistState) (t : Int × Int × Int) :
    Except PyErr HistState := do
  let (n_errs, re_count, ue_count) := t
  let pair := (alGet st.raw n_errs).getD (0, 0)
  let st : HistState := { st with raw := alSet st.raw n_errs (pair.1 + re_count, pair.2 + ue_count) }
  let st ←
    if 0 < re_count then
      if n_errs ≤ bcl then
        pure { st with re := alSet st.re n_errs ((alGet st.re n_errs).getD 0 + re_count) }
      else throw (PyErr.assertionError "Cannot have more errors in a burst_codeword than there are bits")
    else pure st
  if 0 < ue_count then
    if n_errs ≤ bl then
      pure { st with ue := alSet st.ue n_errs ((alGet st.ue n_errs).getD 0 + ue_count) }
    else throw (PyErr.assertionError "Cannot have more errors in a burst than there are bits")
  else pure st

/-- One stored entry from a run's `data` list: convert it (lazy `map(int, ...)`
plus unpack) and fold it into the histograms. -/
def processEntry (bl bcl : Int) (st : HistState) (e : List PyStr) :
    Except PyErr HistState := do
  let t ← pyUnpack3Ints e
  processTriple bl bcl st t

/-- Lines 243-259: fold every entry of every run of one group into the three
histograms. -/
def histOfRuns (bl bcl : Int) (runs : List (List (List PyStr))) :
    Except PyErr HistState :=
  runs.foldlM (fun st run => run.foldlM (processEntry bl bcl) st)
    (HistState.mk [] [] [])

/-- `sum([n_errs * count for n_errs, count in h.items()])`. -/
def weightedSum (h : List (Int × Int)) : Int :=
  (h.map (fun e => e.1 * e.2)).sum

/-- `sum(h.values())`. -/
def valsSum (h : List (Int × Int)) : Int :=
  (h.map (fun e => e.2)).sum

/-- Lines 261-267: derive `rber` (guarded by `if re_histogram`, sentinel
`-1.0`) and `uber` (unguarded float division). -/
def computeRates (bl bcl ps : Int) (re ue : List (Int × Int)) :
    Except PyErr (ℚ × ℚ) := do
  let rber ←
    if re ≠ [] then pyDiv (weightedSum re) ((bcl - ps) * valsSum re)
    else pure (-1 : ℚ)
  let uber ← pyDiv (weightedSum ue) (bl * valsSum ue)
  return (rber, uber)

/-- The final per-identity record written back by lines 268-274. -/
structure OldRecord where
  metadata : OldMetaNoP
  p : List Int
  raw_data : List (Int × (Int × Int))
  rber : ℚ
  uber : ℚ
  re_data : List (Int × Int)
  ue_data : List (Int × Int)
  deriving DecidableEq, Repr

/-- Phase 2 of `parse_all_files` (lines 237-274) for one group. -/
def finalizeGroup (g : OldGroup) : Except PyErr OldRecord := do
  let st ← histOfRuns g.metadata.bl g.metadata.bcl g.data
  let (rber, uber) ← computeRates g.metadata.bl g.metadata.bcl g.metadata.ps st.re st.ue
  return { metadata := g.metadata, p := g.p, raw_data := st.raw,
           rber := rber, uber := uber, re_data := st.re, ue_data := st.ue }

/-- `parse_all_files` (lines 209-276) over a list of files, each given as its
list of lines. -/
def parse_all_files (files : List (List PyStr)) (experimental : Bool) :
    Except PyErr (List (PyStr × OldRecord)) := do
  let dirty ← files.foldlM (fun acc f => do
      let d ← parse_einsim_output_file f
      return acc ++ d) ([] : List OldParsed)
  let groups := gatherRuns dirty experimental 0 []
  groups.foldlM (fun acc ug => do
      let r ← finalizeGroup ug.2
      return acc ++ [(ug.1, r)]) []

end OldFormat

/-! ## The keyword-format utilities (`src/script/utils/utils.py`)

This module parses the `[DATA] key:value ... [ payload ]` format into a
run record with a 10-field metadata list indexed by the `MI_*` constants,
derives run identities, combines aggregated runs and serializes them. -/

namespace NewFormat

/-- A value stored in the 10-slot metadata list: the parser stores `int(...)`
results for `uid`/`nw`/`bl`/`bcl`/`ps`, raw strings for the remaining keys,
and the Python integer `-1` for any absent key (also for absent string
keys, lines 79-83). -/
inductive MVal where
  | int (i : Int)
  | str (s : PyStr)
  deriving DecidableEq, Repr

/-- Python `str()` of a metadata value. -/
def mstr : MVal → PyStr
  | .int i => pyIntStr i
  | .str s => s

/-- Whether a metadata value is a Python `int`. -/
def MVal.isIntB : MVal → Bool
  | .int _ => true
  | .str _ => false

/-- Python `+` on metadata values. -/
def pyAddMVal : MVal → MVal → Except PyErr MVal
  | .int a, .int b => .ok (.int (a + b))
  | .str a, .str b => .ok (.str (a ++ b))
  | .int _, .str _ => .error (.typeError "unsupported operand types for +")
  | .str _, .int _ => .error (.typeError "can only concatenate str (not \"int\") to str")

/-- Python `*` on metadata values (string repetition included). -/
def pyMulMVal : MVal → MVal → Except PyErr MVal
  | .int a, .int b => .ok (.int (a * b))
  | .int a, .str s => .ok (.str (List.flatten (List.replicate a.toNat s)))
  | .str s, .int a => .ok (.str (List.flatten (List.replicate a.toNat s)))
  | .str _, .str _ => .error (.typeError "cannot multiply str by str")

/-- Python `sum(l)` (initial value the integer `0`). -/
def pySumMVal (l : List MVal) : Except PyErr MVal :=
  l.foldlM pyAddMVal (MVal.int 0)

/-- The metadata list of lines 73-83; field order follows the index
constants `MI_UID .. MI_OBS` (lines 28-38). -/
structure Metadata where
  uid : MVal
  nw : MVal
  bl : MVal
  bcl : MVal
  ps : MVal
  em : MVal
  cd : MVal
  dp : MVal
  cdp : MVal
  obs : MVal
  deriving DecidableEq, Repr

def OBS_N_ERRORS_PER_BURST : PyStr := "N_ERRORS_PER_BURST".data
def OBS_PER_BIT_ERROR_COUNT : PyStr := "PER_BIT_ERROR_COUNT".data

/-- One `key:value` token of the identity string: `' key:' + str(v)`, with
a masked field rendered as `' key:-1'` (lines 329-338). -/
def uidToken (name : PyStr) (fields_to_combine : List PyStr) (v : MVal) : PyStr :=
  if name ∈ fields_to_combine then (' ' :: name) ++ ":-1".data
  else (' ' :: name) ++ (':' :: mstr v)

/-- `run_uid_from_metadata_ignoring_fields` (lines 326-339). -/
def run_uid_from_metadata_ignoring_fields (md : Metadata) (fields_to_combine : List PyStr) : PyStr :=
  "[DATA]".data
    ++ uidToken "uid".data fields_to_combine md.uid
    ++ uidToken "nw".data fields_to_combine md.nw
    ++ uidToken "bl".data fields_to_combine md.bl
    ++ uidToken "bcl".data fields_to_combine md.bcl
    ++ uidToken "ps".data fields_to_combine md.ps
    ++ uidToken "em".data fields_to_combine md.em
    ++ uidToken "cd".data fields_to_combine md.cd
    ++ uidToken "dp".data fields_to_combine md.dp
    ++ uidToken "cdp".data fields_to_combine md.cdp
    ++ uidToken "obs".data fields_to_combine md.obs

/-- `run_uid_from_metadata` (lines 341-342). -/
def run_uid_from_metadata (md : Metadata) : PyStr :=
  run_uid_from_metadata_ignoring_fields md []

/-- The observation payload for kind `N_ERRORS_PER_BURST`
(lines 148-154). -/
structure NErrData where
  rber : ℚ
  uber : ℚ
  re_data : List (Int × Int)
  ue_data : List (Int × Int)
  raw_data : List (Int × (Int × Int))
  deriving DecidableEq, Repr

/-- The observation payload for kind `PER_BIT_ERROR_COUNT`
(lines 162-165). -/
structure PerBitData where
  hist_databurst : List Int
  hist_codeburst : List Int
  deriving DecidableEq, Repr

inductive ObsVal where
  | nerr (d : NErrData)
  | perbit (d : PerBitData)
  deriving DecidableEq, Repr

/-- The per-line record assembled on lines 107-112. -/
structure ParsedRun where
  metadata : Metadata
  experiment_id : Option Int
  uid : PyStr
  uid_ignoring_fields : PyStr
  observations : List (PyStr × ObsVal)
  deriving DecidableEq, Repr

/-- `int(s)` raising the parser-scoped `ValueError`. -/
def pyIntP (s : PyStr) : Except ParseErr Int :=
  match pyInt s with
  | .ok i => .ok i
  | .error _ => .error (.valueError "invalid literal for int")

/-- Lookup in `metadata_extracted`: `dict(pairs)` keeps the last binding of a
repeated key. -/
def dictGet (d : List (PyStr × PyStr)) (k : PyStr) : Option PyStr :=
  (d.reverse.find? (fun e => e.1 == k)).map (fun e => e.2)

/-- Lines 70-71: `dict([i.split(':', 1) for i in meta_split[0:-1]])`.
A token without `':'` splits into a single piece and makes `dict` raise
`ValueError`. -/
def metaPairs (meta_split : List PyStr) : Except ParseErr (List (PyStr × PyStr)) :=
  meta_split.dropLast.foldlM (fun acc tok =>
    match pySplitOnce ':' tok with
    | [k, v] => .ok (acc ++ [(k, v)])
    | _ => .error (.valueError "dictionary update sequence element has length 1")) []

/-- Lines 74-78: an integer field, defaulting to `-1` when absent. -/
def extractIntField (d : List (PyStr × PyStr)) (key : PyStr) : Except ParseErr MVal :=
  match dictGet d key with
  | none => .ok (.int (-1))
  | some s => (pyIntP s).map MVal.int

/-- Lines 79-83: a string field, defaulting to the integer `-1` when
absent. -/
def extractStrField (d : List (PyStr × PyStr)) (key : PyStr) : MVal :=
  match dictGet d key with
  | none => .int (-1)
  | some s => .str s

/-- Lines 69-83: split the tagged line into metadata and payload segments and
extract the metadata list.  Returns the extracted dictionary, the metadata
and the raw payload segment. -/
def extract_metadata (line : PyStr) :
    Except ParseErr (List (PyStr × PyStr) × Metadata × PyStr) := do
  let parts := pySplit '[' (pyStrip (line.drop 7))
  let (meta, raw_data) ← (match parts with
    | [a, b] => Except.ok (a, b)
    | l => Except.error (ParseErr.valueError
        (if l.length < 2 then "not enough values to unpack" else "too many values to unpack")))
  let meta_split := pySplit ' ' meta
  let d ← metaPairs meta_split
  let uid ← extractIntField d "uid".data
  let nw ← extractIntField d "nw".data
  let bl ← extractIntField d "bl".data
  let bcl ← extractIntField d "bcl".data
  let ps ← extractIntField d "ps".data
  let em := extractStrField d "em".data
  let cd := extractStrField d "cd".data
  let dp := extractStrField d "dp".data
  let cdp := extractStrField d "cdp".data
  let obsv := extractStrField d "obs".data
  return (d, Metadata.mk uid nw bl bcl ps em cd dp cdp obsv, raw_data)

/-- `map(int, ...)` unpacking inside the parser (line 122), with the same
conversion-before-arity error order as `pyUnpack3Ints`. -/
def pyUnpack3IntsP (e : List PyStr) : Except ParseErr (Int × Int × Int) :=
  match e with
  | [a, b, c] => do
      let x ← pyIntP a
      let y ← pyIntP b
      let z ← pyIntP c
      return (x, y, z)
  | [] => .error (.valueError "not enough values to unpack")
  | [a] => do
      let _ ← pyIntP a
      .error (.valueError "not enough values to unpack")
  | [a, b] => do
      let _ ← pyIntP a
      let _ ← pyIntP b
      .error (.valueError "not enough values to unpack")
  | a :: b :: c :: d :: _ => do
      let _ ← pyIntP a
      let _ ← pyIntP b
      let _ ← pyIntP c
      let _ ← pyIntP d
      .error (.valueError "too many values to unpack")

/-- The triple loop of lines 122-137.  The raw histogram is accumulated as
on lines 123-126; the assertions on lines 129 and 134 read `bcl` resp. `bl`,
names that are not in scope anywhere in `parse_einsim_output_line`, so the
first triple with a positive repair (resp. uncorrectable) count raises
`NameError`. -/
def nerrLoop : List (List PyStr) → List (Int × (Int × Int)) →
    Except ParseErr (List (Int × (Int × Int)))
  | [], raw => .ok raw
  | e :: rest, raw => do
      let (n_errs, re_count, ue_count) ← pyUnpack3IntsP e
      let pair := (alGet raw n_errs).getD (0, 0)
      let raw := alSet raw n_errs (pair.1 + re_count, pair.2 + ue_count)
      if 0 < re_count then Except.error (ParseErr.nameError "bcl")
      else if 0 < ue_count then Except.error (ParseErr.nameError "bl")
      else nerrLoop rest raw

/-- Lines 116-145: the `N_ERRORS_PER_BURST` payload.  Every path raises: the
loop raises `NameError` on the first positive count, and otherwise both the
repair and uncorrectable histograms stay empty, so line 144 sets
`rber_calculated = -1.0` and line 145 reads the out-of-scope name `bl`. -/
def parse_nerr_payload (raw_data : PyStr) : Except ParseErr NErrData := do
  let entries := ((pySplit ' ' raw_data).filter (fun e => e.contains ':')).map (pySplit ':')
  let _ ← nerrLoop entries []
  Except.error (ParseErr.nameError "bl")

/-- Lines 156-165: the `PER_BIT_ERROR_COUNT` payload. -/
def parse_perbit_payload (raw_data : PyStr) : Except ParseErr PerBitData := do
  let parts := pySplit ':' raw_data
  let (raw_pre, raw_post) ← (match parts with
    | [a, b] => Except.ok (a, b)
    | l => Except.error (ParseErr.valueError
        (if l.length < 2 then "not enough values to unpack" else "too many values to unpack")))
  let db ← ((pySplit ' ' raw_pre).filter (fun i => !i.isEmpty)).mapM pyIntP
  let cb ← ((pySplit ' ' raw_post.dropLast).filter (fun i => !i.isEmpty)).mapM pyIntP
  return PerBitData.mk db cb

/-- `parse_einsim_output_line` of `src/script/utils/utils.py` (lines 67-169).
The guard on line 68 is again the chained comparison
`line[:6] == "[DATA]" in line`.  On lines 92-96 `experiment_id` is a local
variable of this function (it is assigned on line 96), read on line 93
before any assignment: with `is_experimental` set, CPython raises
`UnboundLocalError` for every tagged line that survives metadata
extraction. -/
def parse_einsim_output_line (line : PyStr) (fields_to_combine : List PyStr)
    (is_experimental : Bool) : Except ParseErr (Option ParsedRun) :=
  if 6 < line.length ∧ line.take 6 = "[DATA]".data ∧ pyContains "[DATA]".data line then
    match extract_metadata line with
    | .error e => .error e
    | .ok (d, md, raw_data) =>
      -- line 84: assert 'obs' in metadata_extracted
      match dictGet d "obs".data with
      | none => .error (.assertionError "No observational data for run")
      | some obs =>
        let run_uid := run_uid_from_metadata md
        let run_uid_ignoring_fields := run_uid_from_metadata_ignoring_fields md fields_to_combine
        if is_experimental then .error (.unboundLocalError "experiment_id")
        else if obs ≠ OBS_N_ERRORS_PER_BURST ∧ obs ≠ OBS_PER_BIT_ERROR_COUNT then
          -- lines 101-103: unknown observable, warn and soft-skip
          .ok none
        else if obs = OBS_N_ERRORS_PER_BURST then
          match parse_nerr_payload raw_data with
          | .error e => .error e
          | .ok nd => .ok (some (ParsedRun.mk md none run_uid run_uid_ignoring_fields
              [(obs, ObsVal.nerr nd)]))
        else
          match parse_perbit_payload raw_data with
          | .error e => .error e
          | .ok pb => .ok (some (ParsedRun.mk md none run_uid run_uid_ignoring_fields
              [(obs, ObsVal.perbit pb)]))
  else
    .ok none

/-- `combine_metadata_element` (lines 244-258), with the field given by its
getter (in the source `elem` is the integer index `MI_*`).  When the values
disagree, both the error policy (line 248) and the warn policy (line 251)
first build their diagnostic message as `"..." + elem + ...`, concatenating
a `str` with the `int` index: CPython raises `TypeError` before the
`assert False` (or before the also-undefined `ifmixed`) is reached.  The
pass policy has no diagnostic and returns `mixed_pass`. -/
def combine_metadata_element (data : List ParsedRun) (getter : Metadata → MVal)
    (mixed_pass mixed_warn mixed_error : Option MVal) : Except PyErr MVal :=
  let all_elem := (data.map (fun r => getter r.metadata)).dedup
  if 1 < all_elem.length then
    if mixed_error ≠ none then
      .error (.typeError "can only concatenate str (not \"int\") to str")
    else if mixed_warn ≠ none then
      .error (.typeError "can only concatenate str (not \"int\") to str")
    else match mixed_pass with
      | some v => .ok v
      | none => .error (.assertionError "Must define either warn, error, or pass on mixed")
  else match all_elem with
    | [v] => .ok v
    | _ => .error .keyError  -- `set().pop()` on the empty set (no input runs)

/-- Lines 233-234: every record must carry the masked identity of the
first one. -/
def checkUids : List ParsedRun → Except PyErr Unit
  | [] => .ok ()
  | d0 :: rest => rest.foldlM (fun _ r =>
      if d0.uid_ignoring_fields = r.uid_ignoring_fields then Except.ok ()
      else Except.error (PyErr.assertionError "uid_ignoring_fields mismatch")) ()

/-- Lookup `run['observations'][observable]` expecting the
`N_ERRORS_PER_BURST` dictionary; a missing key — or a value that is the
`PER_BIT_ERROR_COUNT` dictionary, whose `'raw_data'` key is then missing —
raises `KeyError`. -/
def lookupObsNerr (o : PyStr) (r : ParsedRun) : Except PyErr NErrData :=
  match alGet r.observations o with
  | some (ObsVal.nerr d) => .ok d
  | _ => .error .keyError

/-- Same lookup expecting the `PER_BIT_ERROR_COUNT` dictionary. -/
def lookupObsPerbit (o : PyStr) (r : ParsedRun) : Except PyErr PerBitData :=
  match alGet r.observations o with
  | some (ObsVal.perbit d) => .ok d
  | _ => .error .keyError

/-- Lines 176-193 of `combine_observation`: line 178 iterates
`run_data['raw_data']`, a dictionary, which yields its integer keys; each key
is unpacked into `(n_errs, re_count, ue_count)`, so the first run with a
non-empty raw histogram raises `TypeError`.  A run with an empty raw
histogram just skips the loop body. -/
def coNerrLoop (o : PyStr) : List ParsedRun → Except PyErr Unit
  | [] => .ok ()
  | r :: rest => do
      let d ← lookupObsNerr o r
      if d.raw_data ≠ [] then
        Except.error (PyErr.typeError "cannot unpack non-iterable int object")
      else coNerrLoop o rest

/-- Lines 211-223 of `combine_observation`: the first run with a non-empty
pair of bit histograms is copied, later runs are length-checked and added
element-wise. -/
def coPerbitLoop (o : PyStr) : List ParsedRun → (List Int × List Int) →
    Except PyErr (List Int × List Int)
  | [], acc => .ok acc
  | r :: rest, acc => do
      let a ← lookupObsPerbit o r
      if acc.1 ≠ [] ∨ acc.2 ≠ [] then
        if acc.1.length ≠ a.hist_databurst.length then
          Except.error (PyErr.assertionError "Cannot combine different lengths")
        else if acc.2.length ≠ a.hist_codeburst.length then
          Except.error (PyErr.assertionError "Cannot combine different lengths")
        else
          coPerbitLoop o rest (acc.1.zipWith (fun x y => x + y) a.hist_databurst,
            acc.2.zipWith (fun x y => x + y) a.hist_codeburst)
      else coPerbitLoop o rest (a.hist_databurst, a.hist_codeburst)

/-- `combine_observation` (lines 171-229).  For `N_ERRORS_PER_BURST` the
loop either raises (first non-empty raw histogram) or leaves every histogram
empty, in which case line 200 sets `rber_calculated = -1.0` and line 201
reads `bl`, a name not in scope in this function: `NameError`. -/
def combine_observation (observable : PyStr) (runs : List ParsedRun) :
    Except PyErr ObsVal :=
  if observable = OBS_N_ERRORS_PER_BURST then
    match coNerrLoop observable runs with
    | .error e => .error e
    | .ok _ => .error (.nameError "bl")
  else if observable = OBS_PER_BIT_ERROR_COUNT then
    match coPerbitLoop observable runs ([], []) with
    | .error e => .error e
    | .ok (db, cb) => .ok (ObsVal.perbit (PerBitData.mk db cb))
  else
    .error (.assertionError "Unimplemented observable")

/-- The leaked loop variable `run` read on line 285: it is the last record
visited by the `for run in data[1:]` loop (line 233) or by the
`total_bits_measured` loop over `data` (line 266, only executed when every
word count is known).  With a single input run of unknown word count neither
loop runs and line 285 raises `NameError`. -/
def leakedRun (data : List ParsedRun) (invalid_word_list : Bool) :
    Except PyErr ParsedRun :=
  if invalid_word_list ∧ data.length < 2 then .error (.nameError "run")
  else match data.getLast? with
    | some r => .ok r
    | none => .error (.nameError "run")

/-- `combine_runs` (lines 232-288). -/
def combine_runs (data : List ParsedRun) (fields_to_combine : List PyStr) :
    Except PyErr ParsedRun := do
  checkUids data
  let muid ← combine_metadata_element data (fun m => m.uid) (some (.int (-1))) none none
  let word_list := data.map (fun r => r.metadata.nw)
  let invalid_word_list := word_list.any (fun i => i == MVal.int (-1))
  let mnw ←
    if !invalid_word_list then do
      let s ← pySumMVal word_list
      -- lines 265-268: total_bits_measured is computed (and can raise) even
      -- though it is never used afterwards
      let _ ← data.foldlM (fun acc r => do
          let nb ← pyMulMVal r.metadata.bcl r.metadata.nw
          pyAddMVal acc nb) (MVal.int 0)
      pure s
    else combine_metadata_element data (fun m => m.nw) (some (.int (-1))) none none
  let mbl ← combine_metadata_element data (fun m => m.bl) none none (some (.int (-1)))
  let mbcl ← combine_metadata_element data (fun m => m.bcl) none (some (.int (-1))) none
  let mps ← combine_metadata_element data (fun m => m.ps) none (some (.int (-1))) none
  let mem ← combine_metadata_element data (fun m => m.em) (some (.int (-1))) none none
  let mcd ← combine_metadata_element data (fun m => m.cd) (some (.int (-1))) none none
  let mdp ← combine_metadata_element data (fun m => m.dp) (some (.int (-1))) none none
  let mcdp ← combine_metadata_element data (fun m => m.cdp) (some (.int (-1))) none none
  let mobs ← combine_metadata_element data (fun m => m.obs) none none (some (.int (-1)))
  let md := Metadata.mk muid mnw mbl mbcl mps mem mcd mdp mcdp mobs
  let uid := run_uid_from_metadata md
  let uid_ign := run_uid_from_metadata_ignoring_fields md fields_to_combine
  -- line 285: the observable set is taken from the leaked `run` binding,
  -- i.e. from the last input record only
  let rF ← leakedRun data invalid_word_list
  let observables := (rF.observations.map (fun e => e.1)).dedup
  let obsList ← observables.foldlM (fun acc o => do
      let v ← combine_observation o data
      pure (alSet acc o v)) ([] : List (PyStr × ObsVal))
  return ParsedRun.mk md (some (-1)) uid uid_ign obsList

/-- Serialization of one observation by `get_output_string`
(lines 348-360).  For `N_ERRORS_PER_BURST`, line 353 reads `val`, a name
that is not in scope in `get_output_string` (its input dictionary is the
parameter `raw_data`): `NameError`.  For `PER_BIT_ERROR_COUNT`,
lines 356-360 re-read the observation through the parameter and emit the two
integer sequences. -/
def outputOne (r : ParsedRun) (acc : PyStr) (e : PyStr × ObsVal) :
    Except PyErr PyStr :=
  let acc := acc ++ r.uid ++ " obs:".data ++ e.1
  if e.1 = OBS_N_ERRORS_PER_BURST then
    .error (.nameError "val")
  else if e.1 = OBS_PER_BIT_ERROR_COUNT then
    match alGet r.observations e.1 with
    | some (ObsVal.perbit d) =>
        .ok (acc ++ " [ ".data
          ++ (d.hist_databurst.foldl (fun s i => s ++ pyIntStr i ++ " ".data) [])
          ++ ": ".data
          ++ (d.hist_codeburst.foldl (fun s i => s ++ pyIntStr i ++ " ".data) [])
          ++ "]\n".data)
    | _ => .error .keyError
  else
    .ok acc

/-- `get_output_string` (lines 345-361). -/
def get_output_string (raw_data : ParsedRun) : Except PyErr PyStr :=
  if raw_data.observations = [] then
    .error (.assertionError "Must have at least one observation in the data")
  else raw_data.observations.foldlM (outputOne raw_data) []

end NewFormat

/-! ## A small model of `json.loads`

`parse_files_incremental` decodes the `[ECC]` side-channel line with
`json.loads`; the decoded descriptor is opaque to the scripts, so the model
validates JSON syntax and returns the raw text. -/

/-- Skip JSON whitespace. -/
def jsonWs (s : PyStr) : PyStr :=
  s.dropWhile (fun c => c = ' ' || c = '\t' || c = '\n' || c = '\r')

/-- Consume the remainder of a JSON string after the opening quote. -/
def jsonStringRest : PyStr → Option PyStr
  | [] => none
  | '"' :: rest => some rest
  | '\\' :: _ :: rest => jsonStringRest rest
  | _ :: rest => jsonStringRest rest

/-- Consume a JSON number. -/
def jsonNumberRest (s : PyStr) : Option PyStr :=
  let s1 := match s with | '-' :: r => r | _ => s
  let ip := s1.takeWhile Char.isDigit
  if ip.isEmpty then none
  else
    let r1 := s1.dropWhile Char.isDigit
    let r2 := match r1 with
      | '.' :: r => if (r.takeWhile Char.isDigit).isEmpty then none
                    else some (r.dropWhile Char.isDigit)
      | _ => some r1
    match r2 with
    | none => none
    | some r3 =>
      match r3 with
      | 'e' :: r | 'E' :: r =>
          let r4 := match r with | '-' :: r5 => r5 | '+' :: r5 => r5 | _ => r
          if (r4.takeWhile Char.isDigit).isEmpty then none
          else some (r4.dropWhile Char.isDigit)
      | _ => some r3

mutual

/-- Consume one JSON value, returning the rest of the input. -/
def jsonValue : Nat → PyStr → Option PyStr
  | 0, _ => none
  | Nat.succ fuel, s =>
    match jsonWs s with
    | '\x7b' :: rest => jsonObjectBody fuel rest true
    | '[' :: rest => jsonArrayBody fuel rest true
    | '"' :: rest => jsonStringRest rest
    | 't' :: 'r' :: 'u' :: 'e' :: rest => some rest
    | 'f' :: 'a' :: 'l' :: 's' :: 'e' :: rest => some rest
    | 'n' :: 'u' :: 'l' :: 'l' :: rest => some rest
    | other => jsonNumberRest other

/-- Consume the members of a JSON object after `\x7b`; `first` marks whether
no member has been consumed yet. -/
def jsonObjectBody : Nat → PyStr → Bool → Option PyStr
  | 0, _, _ => none
  | Nat.succ fuel, s, first =>
    match jsonWs s with
    | '\x7d' :: rest => if first then some rest else none
    | s1 =>
      match s1 with
      | '"' :: rest =>
        match jsonStringRest rest with
        | none => none
        | some afterKey =>
          match jsonWs afterKey with
          | ':' :: afterColon =>
            match jsonValue fuel afterColon with
            | none => none
            | some afterVal =>
              match jsonWs afterVal with
              | ',' :: afterComma => jsonObjectBody fuel afterComma false
              | '\x7d' :: rest2 => some rest2
              | _ => none
          | _ => none
      | _ => none

/-- Consume the items of a JSON array after `[`. -/
def jsonArrayBody : Nat → PyStr → Bool → Option PyStr
  | 0, _, _ => none
  | Nat.succ fuel, s, first =>
    match jsonWs s with
    | ']' :: rest => if first then some rest else none
    | s1 =>
      match jsonValue fuel s1 with
      | none => none
      | some afterVal =>
        match jsonWs afterVal with
        | ',' :: afterComma => jsonArrayBody fuel afterComma false
        | ']' :: rest2 => some rest2
        | _ => none

end

/-- `json.loads` on the side-channel payload: validate the syntax and carry
the text through (the descriptor is uninterpreted, §3 `EccCodeDescriptor`). -/
def pyJsonLoads (s : PyStr) : Except PyErr PyStr :=
  match jsonValue (s.length + 1) s with
  | some rest => if (jsonWs rest).isEmpty then .ok s else .error .jsonDecodeError
  | none => .error .jsonDecodeError

namespace NewFormat

/-- Per-file line loop of `parse_files_incremental`
(`src/script/utils/utils.py` lines 378-404).

* `parse_einsim_output_line` runs under a handler (lines 383-394) that
  re-raises `KeyboardInterrupt` and otherwise records the first malformed
  line number of the file (`malformed_line`), logging a warning only for
  that first failure, and continues with `parsed_data = None`;
* a parsed record is handed to the callback (line 398). The local
  `ecc_code` is initialized to `None` on line 376 and never reassigned in
  this function, so the callback always receives `None` as its second
  argument;
* a non-record `[ECC]` line is decoded on line 400 with `json.loads`,
  which is **outside** the `try` block, so a decode failure propagates;
* file sizes and progress printing (lines 402-403) are I/O only.

The log of emitted malformed-line warnings is returned as the list of
logged line numbers for this file. -/
def processLines {σ : Type} (fields_to_combine : List PyStr) (is_experimental : Bool)
    (callback : ParsedRun → Option PyStr → σ → σ) (fname : PyStr) :
    List PyStr → Nat → Int → σ → List (PyStr × PyStr) → List Nat →
    Except PyErr (σ × List (PyStr × PyStr) × List Nat)
  | [], _, _, acc, ecc_codes, log => .ok (acc, ecc_codes, log)
  | line :: rest, line_num, malformed_line, acc, ecc_codes, log =>
      let ln := line_num + 1
      match (parse_einsim_output_line line fields_to_combine is_experimental).mapError
          PyErr.ofParseErr with
      | .error PyErr.keyboardInterrupt => .error PyErr.keyboardInterrupt
      | .error _ =>
          let log' := if malformed_line = -1 then log ++ [ln] else log
          let malformed' := if malformed_line = -1 then (ln : Int) else malformed_line
          if pyStartsWith "[ECC]".data line then
            match pyJsonLoads (line.drop 6) with
            | .ok j => processLines fields_to_combine is_experimental callback fname rest
                ln malformed' acc (alSet ecc_codes fname j) log'
            | .error e => .error e
          else
            processLines fields_to_combine is_experimental callback fname rest
              ln malformed' acc ecc_codes log'
      | .ok none =>
          if pyStartsWith "[ECC]".data line then
            match pyJsonLoads (line.drop 6) with
            | .ok j => processLines fields_to_combine is_experimental callback fname rest
                ln malformed_line acc (alSet ecc_codes fname j) log
            | .error e => .error e
          else
            processLines fields_to_combine is_experimental callback fname rest
              ln malformed_line acc ecc_codes log
      | .ok (some r) =>
          processLines fields_to_combine is_experimental callback fname rest
            ln malformed_line (callback r none acc) ecc_codes log

/-- Lines 371-405: the per-file body of `parse_files_incremental` —
`malformed_line` and `line_num` are reset for each file, the per-file
warning log starts empty and is appended to the collected logs. -/
def pfiStep {σ : Type} (fields_to_combine : List PyStr) (is_experimental : Bool)
    (callback : ParsedRun → Option PyStr → σ → σ)
    (st : σ × List (PyStr × PyStr) × List (List Nat)) (f : PyStr × List PyStr) :
    Except PyErr (σ × List (PyStr × PyStr) × List (List Nat)) := do
  let (acc, ecc, logs) := st
  let (acc', ecc', log) ← processLines fields_to_combine is_experimental callback
    f.1 f.2 0 (-1) acc ecc []
  return (acc', ecc', logs ++ [log])

/-- `parse_files_incremental` (lines 365-406) over files given as
`(name, lines)` pairs.  Returns the callback accumulator, the collected
`ecc_codes` mapping and the per-file warning logs. -/
def parse_files_incremental {σ : Type} (infilenames : List (PyStr × List PyStr))
    (is_experimental : Bool) (fields_to_combine : List PyStr)
    (callback : ParsedRun → Option PyStr → σ → σ) (acc0 : σ) :
    Except PyErr (σ × List (PyStr × PyStr) × List (List Nat)) :=
  infilenames.foldlM (pfiStep fields_to_combine is_experimental callback) (acc0, [], [])

end NewFormat

/-! ## The likelihood evaluator's top-K structure (`src/script/ein/ein.py`)

Lines 106-117 of `callback` maintain, per observation, a bounded set of the
best models seen so far: a `heapq` min-heap of `(sim_max_logprob, sim_uid)`
pairs.  A new model is admitted when the heap holds fewer than
`max_n_models_to_plot` entries or when its score beats the root's score
(`heap[0][0]`), in which case the minimum pair is popped first once the heap
is full.  The heap is embedded by its contents (a list of pairs); `heappop`
removes the lexicographically least pair, `heappush` adds a pair. -/

namespace Ein

/-- `max_n_models_to_plot` (ein.py line 32). -/
def max_n_models_to_plot : Nat := 20

variable {α : Type} [LinearOrder α]

/-- The lexicographically least `(score, uid)` pair of the heap contents:
the pair `heapq` keeps at `heap[0]` and removes on `heappop`. -/
def lexMin : List (α × Nat) → Option (α × Nat)
  | [] => none
  | x :: xs =>
      match lexMin xs with
      | none => some x
      | some m => if x.1 < m.1 ∨ (x.1 = m.1 ∧ x.2 ≤ m.2) then some x else some m

/-- Remove the first occurrence of `x`. -/
def removeFirst : List (α × Nat) → (α × Nat) → List (α × Nat)
  | [], _ => []
  | y :: ys, x => if y = x then ys else y :: removeFirst ys x

/-- Lines 111-117 of `callback` for one evaluated model, given its
`sim_max_logprob = np.max(log_probs)` score and its uid.  (The mirrored
`top_n_models_data` dictionary holds exactly the uids present in the heap
and is not carried separately.) -/
def topkStep (st : List (α × Nat)) (x : α × Nat) : List (α × Nat) :=
  if st.length < max_n_models_to_plot then x :: st
  else match lexMin st with
    | none => st  -- unreachable: the heap holds max_n_models_to_plot > 0 entries
    | some m => if m.1 < x.1 then x :: removeFirst st m else st

/-- The retained top-model set after a sequence of accepted models. -/
def topkFold (xs : List (α × Nat)) : List (α × Nat) :=
  xs.foldl topkStep []

/-- Invariant carried through the top-K fold: the heap respects the bound;
below capacity nothing has ever been rejected; and every processed pair that
is not retained scores no higher than any retained pair. -/
def TopkInv (st processed : List (α × Nat)) : Prop :=
  st.length ≤ max_n_models_to_plot ∧
  (st.length < max_n_models_to_plot → ∀ p ∈ processed, p ∈ st) ∧
  (∀ p ∈ processed, p ∉ st → ∀ r ∈ st, p.1 ≤ r.1)

end Ein

/-! ## Concrete fixtures used by the claim theorems -/

/-- Did a parse attempt succeed with a record? -/
def isOkSome {ε α : Type} : Except ε (Option α) → Bool
  | .ok (some _) => true
  | _ => false

/-- The example input line of the specification (§8). -/
def exampleLine : PyStr :=
  "[DATA] REP: p:584576191 t:1 k:4 n:12 rber:1e-06 bl:256 bcl:768 ps:0 ed:UNIFORM_RANDOM cd:ALL_TRUE_OR_ALL_ANTI dp:RANDOM [ 0:9998:10000 1:2:0 ]".data

/-- The metadata the flat-format pipeline extracts from `exampleLine`. -/
def exampleMeta : OldFormat.OldMetaNoP :=
  OldFormat.OldMetaNoP.mk "REP".data 1 4 12 (-1) (Rat.divInt 1 1000000) 256 768 0
    "UNIFORM_RANDOM".data "ALL_TRUE_OR_ALL_ANTI".data "RANDOM".data

/-- The aggregate record the flat-format pipeline derives from
`exampleLine`. -/
def exampleRecord : OldFormat.OldRecord :=
  OldFormat.OldRecord.mk exampleMeta [584576191] [(0, (9998, 10000)), (1, (2, 0))]
    (Rat.divInt 2 7680000) 0 [(0, 9998), (1, 2)] [(0, 10000)]

/-- A baseline keyword-format metadata record. -/
def baseMd : NewFormat.Metadata :=
  NewFormat.Metadata.mk (.int 1) (.int 10) (.int 256) (.int 768) (.int 0)
    (.str "UNIFORM_RANDOM".data) (.str "X".data) (.str "R".data)
    (.int (-1)) (.str NewFormat.OBS_N_ERRORS_PER_BURST)

/-- A run record carrying the given metadata, with identities derived by the
resolver itself. -/
def mkRun (md : NewFormat.Metadata) (mask : List PyStr)
    (obs : List (PyStr × NewFormat.ObsVal)) : NewFormat.ParsedRun :=
  NewFormat.ParsedRun.mk md none (NewFormat.run_uid_from_metadata md)
    (NewFormat.run_uid_from_metadata_ignoring_fields md mask) obs

/-- `baseMd` with a different burst codeword length. -/
def mdBclDiff : NewFormat.Metadata := { baseMd with bcl := .int 1024 }

/-- `baseMd` with a different burst length. -/
def mdBlDiff : NewFormat.Metadata := { baseMd with bl := .int 512 }

/-- An `N_ERRORS_PER_BURST` observation holding the example histograms. -/
def exampleNerrObs : List (PyStr × NewFormat.ObsVal) :=
  [(NewFormat.OBS_N_ERRORS_PER_BURST,
    NewFormat.ObsVal.nerr (NewFormat.NErrData.mk (Rat.divInt 2 7680000) 0
      [(0, 9998), (1, 2)] [(0, 10000)] [(0, (9998, 10000)), (1, (2, 0))]))]

/-- A well-formed keyword-format line (used against the experimental
mode). -/
def perbitLine : PyStr :=
  "[DATA] uid:3 bl:2 obs:PER_BIT_ERROR_COUNT [ 1 2 : 3 4 ]".data

/-- A counting callback for the streaming reducer. -/
def cbCount : NewFormat.ParsedRun → Option PyStr → Nat → Nat := fun _ _ n => n + 1

/-- 21 models with pairwise distinct scores `0..20`. -/
def topkModels : List (Int × Nat) :=
  (List.range 21).map (fun i => (Int.ofNat i, i))

/-- A file whose first two tagged lines are malformed and whose last line is
a well-formed `[ECC]` descriptor. -/
def c7Files : List (PyStr × List PyStr) :=
  [("f".data, ["junk".data, "[DATA] x [".data, "[DATA] y [".data, "[ECC] \x7b\x7d".data])]

/-! ## Theorems -/

theorem ofParseErr_ne_keyboardInterrupt (e : ParseErr) :
    PyErr.ofParseErr e ≠ PyErr.keyboardInterrupt := by
  cases e <;> simp [PyErr.ofParseErr]

set_option maxRecDepth 20000

/-- C3: parsing the single example input line through the flat-format
pipeline produces raw histogram `0 ↦ (9998, 10000), 1 ↦ (2, 0)`, repair
histogram `0 ↦ 9998, 1 ↦ 2`, uncorrectable histogram `0 ↦ 10000`,
`uber = 0` and `rber = 2/7680000` (the identity key the record is stored
under is projected away). -/
theorem c3_example_line_aggregates :
    (OldFormat.parse_all_files [[exampleLine]] false).map (List.map Prod.snd) =
      Except.ok [exampleRecord] := by
  decide

/-- C1: serializing a combined-run-shaped record that carries an
`N_ERRORS_PER_BURST` observation raises `NameError` (line 353 of
`src/script/utils/utils.py` reads the out-of-scope name `val`), so its
output can never be re-parsed: the round trip fails for this observable
kind. -/
theorem c1_get_output_string_raises :
    NewFormat.get_output_string (mkRun baseMd [] exampleNerrObs) =
      .error (.nameError "val") := by
  decide

/-- C2: combining three parsed-run-shaped records of kind
`N_ERRORS_PER_BURST` with non-empty raw histograms raises `TypeError`
(line 178 of `combine_observation` iterates the raw-histogram dictionary,
yielding integer keys, and unpacks each key into three variables); no
combined histograms are ever produced, so the claimed
commutativity/associativity identities cannot hold. -/
theorem c2_combine_nerr_raises :
    NewFormat.combine_runs
      [mkRun baseMd [] exampleNerrObs, mkRun baseMd [] exampleNerrObs,
        mkRun baseMd [] exampleNerrObs] [] =
      .error (.typeError "cannot unpack non-iterable int object") := by
  decide

/-- C4: combining two runs that agree on the masked identity but differ in
`bcl` does not warn-and-mark: the warn branch of `combine_metadata_element`
(line 251) concatenates the integer field index into its message and raises
`TypeError`, a fatal error, before the sentinel `-1` could be returned. -/
theorem c4_bcl_mismatch_raises :
    NewFormat.combine_runs
      [mkRun baseMd ["bcl".data] [], mkRun mdBclDiff ["bcl".data] []] ["bcl".data] =
      .error (.typeError "can only concatenate str (not \"int\") to str") := by
  decide

/-- C6: with `is_experimental` set, `parse_einsim_output_line` never
produces a record for any input line: `experiment_id` is an unassigned
local variable, so every tagged line that survives metadata extraction
raises `UnboundLocalError` (concretely so for a well-formed line), and
every other line yields `None` or an earlier exception. -/
theorem c6_experimental_never_parses :
    (∀ (line : PyStr) (fields : List PyStr),
      isOkSome (NewFormat.parse_einsim_output_line line fields true) = false) ∧
    NewFormat.parse_einsim_output_line perbitLine [] true =
      .error (.unboundLocalError "experiment_id") := by
  constructor
  · intro line fields
    unfold NewFormat.parse_einsim_output_line
    split
    · rcases hx : NewFormat.extract_metadata line with e | ⟨d, md, raw⟩
      · rfl
      · rcases hd : NewFormat.dictGet d ("obs".data) with _ | obs <;>
          simp only [hd, isOkSome, if_true]
    · rfl
  · decide

/-- C5 counterexample: two metadata records that differ (only) in the `em`
field — the Python integer `-1` versus the string `"-1"` — render to the
same masked identity string, so changing a single unmasked field does not
always change the identity. -/
theorem c5_render_collision :
    { baseMd with em := .int (-1) } ≠ { baseMd with em := .str "-1".data } ∧
    NewFormat.run_uid_from_metadata_ignoring_fields { baseMd with em := .int (-1) } ["bl".data] =
      NewFormat.run_uid_from_metadata_ignoring_fields { baseMd with em := .str "-1".data } ["bl".data] := by
  decide

/-- C10: in the flat-format rate computation (lines 261-267 of
`src/script/utils.py`), an empty uncorrectable-event histogram makes the
`uber` denominator `bl * sum(...)` zero and the unguarded float division
raises `ZeroDivisionError` (whatever `bl`); only `rber` is guarded: with an
empty repair histogram it is the sentinel `-1.0` while `uber` is still
computed. -/
theorem c10_uber_unguarded :
    (∀ (bl bcl ps : Int) (re : List (Int × Int)),
      OldFormat.computeRates bl bcl ps re [] = .error .zeroDivisionError) ∧
    (∀ (bl bcl ps : Int) (ue : List (Int × Int)), bl * OldFormat.valsSum ue ≠ 0 →
      OldFormat.computeRates bl bcl ps [] ue =
        .ok (-1, Rat.divInt (OldFormat.weightedSum ue) (bl * OldFormat.valsSum ue))) := by
  constructor
  · intro bl bcl ps re
    unfold OldFormat.computeRates
    rcases re with _ | ⟨e, re⟩
    · simp [pyDiv, OldFormat.valsSum, Except.bind]
    · rcases hx : pyDiv (OldFormat.weightedSum (e :: re)) ((bcl - ps) * OldFormat.valsSum (e :: re)) with err | q
      · have herr : err = PyErr.zeroDivisionError := by
          unfold pyDiv at hx
          split at hx <;> simp_all
        subst herr
        simp only [ne_eq, reduceCtorEq, not_false_eq_true, if_neg, hx, reduceIte]
        rfl
      · have h0 : pyDiv (OldFormat.weightedSum ([] : List (Int × Int)))
            (bl * OldFormat.valsSum ([] : List (Int × Int))) =
            Except.error PyErr.zeroDivisionError := by
          simp [pyDiv, OldFormat.valsSum]
        simp only [ne_eq, reduceCtorEq, not_false_eq_true, if_neg, hx, reduceIte, h0]
        rfl
  · intro bl bcl ps ue h
    simp [OldFormat.computeRates, pyDiv, h, Except.bind]

/-- Witness for C10 at concrete inputs. -/
theorem c10_uber_unguarded_witness :
    OldFormat.computeRates 256 768 0 [(0, 5)] [] = .error .zeroDivisionError ∧
    OldFormat.computeRates 256 768 0 [] [(1, 4)] =
      .ok (-1, Rat.divInt (OldFormat.weightedSum [(1, 4)]) (256 * OldFormat.valsSum [(1, 4)])) :=
  ⟨c10_uber_unguarded.1 256 768 0 [(0, 5)],
   c10_uber_unguarded.2 256 768 0 [(1, 4)] (by decide)⟩

/-- C5 (amended): with `bl` masked, the identity string is invariant under
any change of `bl`; and changing any single other (unmasked) field changes
the identity exactly when the field's string rendering changes — in
particular the integer `-1` and the string `"-1"` render alike (see the
counterexample) and are the only way to change a field without changing the
identity. -/
theorem c5_masked_identity (md : NewFormat.Metadata) (v : NewFormat.MVal) :
    (NewFormat.run_uid_from_metadata_ignoring_fields { md with bl := v } ["bl".data] =
      NewFormat.run_uid_from_metadata_ignoring_fields md ["bl".data]) ∧
    (NewFormat.run_uid_from_metadata_ignoring_fields { md with uid := v } ["bl".data] =
        NewFormat.run_uid_from_metadata_ignoring_fields md ["bl".data] ↔
      NewFormat.mstr v = NewFormat.mstr md.uid) ∧
    (NewFormat.run_uid_from_metadata_ignoring_fields { md with nw := v } ["bl".data] =
        NewFormat.run_uid_from_metadata_ignoring_fields md ["bl".data] ↔
      NewFormat.mstr v = NewFormat.mstr md.nw) ∧
    (NewFormat.run_uid_from_metadata_ignoring_fields { md with bcl := v } ["bl".data] =
        NewFormat.run_uid_from_metadata_ignoring_fields md ["bl".data] ↔
      NewFormat.mstr v = NewFormat.mstr md.bcl) ∧
    (NewFormat.run_uid_from_metadata_ignoring_fields { md with ps := v } ["bl".data] =
        NewFormat.run_uid_from_metadata_ignoring_fields md ["bl".data] ↔
      NewFormat.mstr v = NewFormat.mstr md.ps) ∧
    (NewFormat.run_uid_from_metadata_ignoring_fields { md with em := v } ["bl".data] =
        NewFormat.run_uid_from_metadata_ignoring_fields md ["bl".data] ↔
      NewFormat.mstr v = NewFormat.mstr md.em) ∧
    (NewFormat.run_uid_from_metadata_ignoring_fields { md with cd := v } ["bl".data] =
        NewFormat.run_uid_from_metadata_ignoring_fields md ["bl".data] ↔
      NewFormat.mstr v = NewFormat.mstr md.cd) ∧
    (NewFormat.run_uid_from_metadata_ignoring_fields { md with dp := v } ["bl".data] =
        NewFormat.run_uid_from_metadata_ignoring_fields md ["bl".data] ↔
      NewFormat.mstr v = NewFormat.mstr md.dp) ∧
    (NewFormat.run_uid_from_metadata_ignoring_fields { md with cdp := v } ["bl".data] =
        NewFormat.run_uid_from_metadata_ignoring_fields md ["bl".data] ↔
      NewFormat.mstr v = NewFormat.mstr md.cdp) ∧
    (NewFormat.run_uid_from_metadata_ignoring_fields { md with obs := v } ["bl".data] =
        NewFormat.run_uid_from_metadata_ignoring_fields md ["bl".data] ↔
      NewFormat.mstr v = NewFormat.mstr md.obs) := by
  obtain ⟨u, nw, bl, bcl, ps, em, cd, dp, cdp, obs⟩ := md
  have t1 : ∀ w : NewFormat.MVal,
      NewFormat.uidToken "uid".data ["bl".data] w = " uid:".data ++ NewFormat.mstr w :=
    fun w => if_neg (by decide)
  have t2 : ∀ w : NewFormat.MVal,
      NewFormat.uidToken "nw".data ["bl".data] w = " nw:".data ++ NewFormat.mstr w :=
    fun w => if_neg (by decide)
  have t3 : ∀ w : NewFormat.MVal,
      NewFormat.uidToken "bl".data ["bl".data] w = " bl:-1".data :=
    fun w => if_pos (by decide)
  have t4 : ∀ w : NewFormat.MVal,
      NewFormat.uidToken "bcl".data ["bl".data] w = " bcl:".data ++ NewFormat.mstr w :=
    fun w => if_neg (by decide)
  have t5 : ∀ w : NewFormat.MVal,
      NewFormat.uidToken "ps".data ["bl".data] w = " ps:".data ++ NewFormat.mstr w :=
    fun w => if_neg (by decide)
  have t6 : ∀ w : NewFormat.MVal,
      NewFormat.uidToken "em".data ["bl".data] w = " em:".data ++ NewFormat.mstr w :=
    fun w => if_neg (by decide)
  have t7 : ∀ w : NewFormat.MVal,
      NewFormat.uidToken "cd".data ["bl".data] w = " cd:".data ++ NewFormat.mstr w :=
    fun w => if_neg (by decide)
  have t8 : ∀ w : NewFormat.MVal,
      NewFormat.uidToken "dp".data ["bl".data] w = " dp:".data ++ NewFormat.mstr w :=
    fun w => if_neg (by decide)
  have t9 : ∀ w : NewFormat.MVal,
      NewFormat.uidToken "cdp".data ["bl".data] w = " cdp:".data ++ NewFormat.mstr w :=
    fun w => if_neg (by decide)
  have t10 : ∀ w : NewFormat.MVal,
      NewFormat.uidToken "obs".data ["bl".data] w = " obs:".data ++ NewFormat.mstr w :=
    fun w => if_neg (by decide)
  refine ⟨?_, ?_, ?_, ?_, ?_, ?_, ?_, ?_, ?_, ?_⟩ <;>
    simp only [NewFormat.run_uid_from_metadata_ignoring_fields, t1, t2, t3, t4, t5, t6, t7,
      t8, t9, t10, List.append_assoc, List.append_cancel_left_eq, List.append_cancel_right_eq]

theorem except_bind_ok {ε α β : Type} (a : α) (f : α → Except ε β) :
    (Except.ok a >>= f) = f a := rfl

theorem except_bind_err {ε α β : Type} (e : ε) (f : α → Except ε β) :
    ((Except.error e : Except ε α) >>= f) = Except.error e := rfl

theorem except_bind_pure {ε α β : Type} (a : α) (f : α → Except ε β) :
    ((pure a : Except ε α) >>= f) = f a := rfl

theorem isIntB_exists {v : NewFormat.MVal} (h : v.isIntB = true) :
    ∃ i, v = .int i := by
  cases v with
  | int i => exact ⟨i, rfl⟩
  | str s => simp [NewFormat.MVal.isIntB] at h

theorem cme_pass_ok (data : List NewFormat.ParsedRun) (g : NewFormat.Metadata → NewFormat.MVal)
    (v : NewFormat.MVal) (h : data ≠ []) :
    ∃ w, NewFormat.combine_metadata_element data g (some v) none none = Except.ok w := by
  unfold NewFormat.combine_metadata_element
  by_cases h1 : 1 < ((data.map fun r => g r.metadata).dedup).length
  · rw [if_pos h1]
    exact ⟨v, by simp⟩
  · rw [if_neg h1]
    have hne : (data.map fun r => g r.metadata).dedup ≠ [] := by
      simp [List.dedup_eq_nil, h]
    rcases hd : (data.map fun r => g r.metadata).dedup with _ | ⟨x, _ | ⟨y, t⟩⟩
    · exact absurd hd hne
    · exact ⟨x, by rw [hd]⟩
    · rw [hd] at h1; simp at h1

theorem cme_error_mismatch (r1 r2 : NewFormat.ParsedRun)
    (g : NewFormat.Metadata → NewFormat.MVal) (v : NewFormat.MVal)
    (h : g r1.metadata ≠ g r2.metadata) :
    NewFormat.combine_metadata_element [r1, r2] g none none (some v) =
      Except.error (PyErr.typeError "can only concatenate str (not \"int\") to str") := by
  unfold NewFormat.combine_metadata_element
  have hd : (([r1, r2].map fun r => g r.metadata).dedup) = [g r1.metadata, g r2.metadata] := by
    simp [List.dedup_cons_of_not_mem, h]
  rw [hd]
  simp

/-- C9 counterexample: combining two runs that differ only in `bl` does end
in an exception, but it is a `TypeError` raised while formatting the
diagnostic (`"..." + elem` with the integer field index), not a failed
assertion naming the field — the `assert False` of line 249 is never
reached. -/
theorem c9_not_an_assertion :
    NewFormat.combine_runs [mkRun baseMd ["bl".data] [], mkRun mdBlDiff ["bl".data] []]
      ["bl".data] =
      Except.error (PyErr.typeError "can only concatenate str (not \"int\") to str") := by
  decide

/-- C9 (amended): for any two runs with equal masked identity, differing
`bl` values, and integer `nw`/`bcl` fields (so that the word-count summation
of lines 260-268 does not itself raise), `combine_runs` raises a fatal
error — a `TypeError` while building the mismatch diagnostic — and never
returns a combined record. -/
theorem c9_bl_mismatch_fatal (r1 r2 : NewFormat.ParsedRun) (F : List PyStr)
    (huid : r1.uid_ignoring_fields = r2.uid_ignoring_fields)
    (hbl : r1.metadata.bl ≠ r2.metadata.bl)
    (hnw1 : r1.metadata.nw.isIntB = true) (hnw2 : r2.metadata.nw.isIntB = true)
    (hbcl1 : r1.metadata.bcl.isIntB = true) (hbcl2 : r2.metadata.bcl.isIntB = true) :
    NewFormat.combine_runs [r1, r2] F =
      Except.error (PyErr.typeError "can only concatenate str (not \"int\") to str") := by
  obtain ⟨a1, ha1⟩ := isIntB_exists hnw1
  obtain ⟨a2, ha2⟩ := isIntB_exists hnw2
  obtain ⟨b1, hb1⟩ := isIntB_exists hbcl1
  obtain ⟨b2, hb2⟩ := isIntB_exists hbcl2
  have hchk : NewFormat.checkUids [r1, r2] = Except.ok () := by
    simp [NewFormat.checkUids, huid]
  obtain ⟨w1, hw1⟩ := cme_pass_ok [r1, r2] (fun m => m.uid) (NewFormat.MVal.int (-1)) (by simp)
  obtain ⟨w2, hw2⟩ := cme_pass_ok [r1, r2] (fun m => m.nw) (NewFormat.MVal.int (-1)) (by simp)
  have hmbl := cme_error_mismatch r1 r2 (fun m => m.bl) (NewFormat.MVal.int (-1)) hbl
  unfold NewFormat.combine_runs
  rw [hchk, except_bind_ok, hw1, except_bind_ok]
  by_cases hinv : ([r1, r2].map (fun r => r.metadata.nw)).any
      (fun i => i == NewFormat.MVal.int (-1)) = true
  · simp only [hinv, Bool.not_true, Bool.false_eq_true, if_false, hw2, except_bind_ok,
      except_bind_pure, hmbl, except_bind_err]
  · rw [Bool.not_eq_true] at hinv
    simp only [hinv, Bool.not_false, if_true, List.map_cons, List.map_nil, ha1, ha2, hb1, hb2,
      NewFormat.pySumMVal, NewFormat.pyAddMVal, NewFormat.pyMulMVal, List.foldlM,
      except_bind_ok, except_bind_pure, hmbl, except_bind_err]
    split
    · rfl
    · rw [hw2]
      rfl

/-- Witness for C9 at two concrete runs. -/
theorem c9_bl_mismatch_fatal_witness :
    NewFormat.combine_runs [mkRun baseMd ["bl".data] [], mkRun mdBlDiff ["bl".data] []]
      ["bl".data] =
      Except.error (PyErr.typeError "can only concatenate str (not \"int\") to str") :=
  c9_bl_mismatch_fatal (mkRun baseMd ["bl".data] []) (mkRun mdBlDiff ["bl".data] [])
    ["bl".data] (by decide) (by decide) (by decide) (by decide) (by decide) (by decide)

namespace Ein

variable {α : Type} [LinearOrder α]

theorem lexMin_eq_none {l : List (α × Nat)} : lexMin l = none ↔ l = [] := by
  cases l with
  | nil => simp [lexMin]
  | cons x xs =>
    simp only [lexMin, List.cons_ne_nil, iff_false]
    rcases h : lexMin xs with _ | m <;> simp only [h]
    · simp
    · split <;> simp

theorem lexMin_mem : ∀ {l : List (α × Nat)} {m : α × Nat}, lexMin l = some m → m ∈ l := by
  intro l
  induction l with
  | nil => intro m h; simp [lexMin] at h
  | cons x xs ih =>
    intro m h
    unfold lexMin at h
    rcases hx : lexMin xs with _ | m2 <;> simp only [hx] at h
    · cases h; exact List.mem_cons_self _ _
    · by_cases hc : x.1 < m2.1 ∨ (x.1 = m2.1 ∧ x.2 ≤ m2.2)
      · rw [if_pos hc] at h; cases h; exact List.mem_cons_self _ _
      · rw [if_neg hc] at h; cases h; exact List.mem_cons_of_mem _ (ih hx)

theorem lexMin_le : ∀ {l : List (α × Nat)} {m : α × Nat}, lexMin l = some m →
    ∀ r ∈ l, m.1 ≤ r.1 := by
  intro l
  induction l with
  | nil => intro m h; simp [lexMin] at h
  | cons x xs ih =>
    intro m h r hr
    unfold lexMin at h
    rcases hx : lexMin xs with _ | m2 <;> simp only [hx] at h
    · cases h
      have hxs : xs = [] := lexMin_eq_none.mp hx
      subst hxs
      rcases List.mem_cons.mp hr with rfl | hr2
      · exact le_refl _
      · cases hr2
    · by_cases hc : x.1 < m2.1 ∨ (x.1 = m2.1 ∧ x.2 ≤ m2.2)
      · rw [if_pos hc] at h
        cases h
        rcases List.mem_cons.mp hr with rfl | hr2
        · exact le_refl _
        · rcases hc with hc | ⟨hc, _⟩
          · exact le_trans (le_of_lt hc) (ih hx r hr2)
          · exact le_trans (le_of_eq hc) (ih hx r hr2)
      · rw [if_neg hc] at h
        cases h
        rcases List.mem_cons.mp hr with rfl | hr2
        · rcases lt_trichotomy m.1 r.1 with h1 | h1 | h1
          · exact le_of_lt h1
          · exact le_of_eq h1
          · exact absurd (Or.inl h1) hc
        · exact ih hx r hr2

theorem removeFirst_length {l : List (α × Nat)} {x : α × Nat} (h : x ∈ l) :
    (removeFirst l x).length + 1 = l.length := by
  induction l with
  | nil => cases h
  | cons y ys ih =>
    unfold removeFirst
    by_cases hy : y = x
    · rw [if_pos hy]
      simp
    · rw [if_neg hy]
      rcases List.mem_cons.mp h with h1 | h2
      · exact absurd h1.symm hy
      · simp [ih h2]

theorem removeFirst_sub : ∀ {l : List (α × Nat)} {x y : α × Nat},
    y ∈ removeFirst l x → y ∈ l := by
  intro l
  induction l with
  | nil => intro x y h; simp [removeFirst] at h
  | cons z zs ih =>
    intro x y h
    unfold removeFirst at h
    by_cases hz : z = x
    · rw [if_pos hz] at h
      exact List.mem_cons_of_mem _ h
    · rw [if_neg hz] at h
      rcases List.mem_cons.mp h with rfl | h2
      · exact List.mem_cons_self _ _
      · exact List.mem_cons_of_mem _ (ih h2)

theorem mem_removeFirst_of_ne : ∀ {l : List (α × Nat)} {x y : α × Nat},
    y ∈ l → y ≠ x → y ∈ removeFirst l x := by
  intro l
  induction l with
  | nil => intro x y h; cases h
  | cons z zs ih =>
    intro x y h hne
    unfold removeFirst
    by_cases hz : z = x
    · rw [if_pos hz]
      rcases List.mem_cons.mp h with rfl | h2
      · exact absurd hz hne
      · exact h2
    · rw [if_neg hz]
      rcases List.mem_cons.mp h with rfl | h2
      · exact List.mem_cons_self _ _
      · exact List.mem_cons_of_mem _ (ih h2 hne)

theorem topkStep_inv {st processed : List (α × Nat)} (x : α × Nat)
    (h : TopkInv st processed) : TopkInv (topkStep st x) (processed ++ [x]) := by
  obtain ⟨hlen, hsub, hdom⟩ := h
  unfold topkStep
  by_cases hlt : st.length < max_n_models_to_plot
  · rw [if_pos hlt]
    refine ⟨by simp; omega, ?_, ?_⟩
    · intro _ p hp
      rcases List.mem_append.mp hp with hp | hp
      · exact List.mem_cons_of_mem _ (hsub hlt p hp)
      · simp at hp; subst hp; exact List.mem_cons_self _ _
    · intro p hp hnp r _
      rcases List.mem_append.mp hp with hp | hp
      · exact absurd (List.mem_cons_of_mem _ (hsub hlt p hp)) hnp
      · simp at hp; subst hp; exact absurd (List.mem_cons_self _ _) hnp
  · rw [if_neg hlt]
    have hK : st.length = max_n_models_to_plot := le_antisymm hlen (not_lt.mp hlt)
    have hne : st ≠ [] := by
      intro h0; rw [h0] at hK; simp [max_n_models_to_plot] at hK
    rcases hm : lexMin st with _ | m
    · exact absurd (lexMin_eq_none.mp hm) hne
    · simp only [hm]
      have hmem := lexMin_mem hm
      have hmle := lexMin_le hm
      by_cases hacc : m.1 < x.1
      · rw [if_pos hacc]
        have hrl := removeFirst_length hmem
        refine ⟨by simp; omega, ?_, ?_⟩
        · intro hl
          exfalso
          simp at hl
          omega
        · intro p hp hnp r hr
          rcases List.mem_append.mp hp with hp | hp
          · have hpm : p.1 ≤ m.1 := by
              by_cases hpst : p ∈ st
              · have hpm' : p = m := by
                  by_contra hne'
                  exact hnp (List.mem_cons_of_mem _ (mem_removeFirst_of_ne hpst hne'))
                rw [hpm']
              · exact hdom p hp hpst m hmem
            rcases List.mem_cons.mp hr with rfl | hr2
            · exact le_trans hpm (le_of_lt hacc)
            · exact le_trans hpm (hmle _ (removeFirst_sub hr2))
          · simp at hp; subst hp
            exact absurd (List.mem_cons_self _ _) hnp
      · rw [if_neg hacc]
        refine ⟨hlen, fun hl => absurd hK (by omega), ?_⟩
        intro p hp hnp r hr
        rcases List.mem_append.mp hp with hp | hp
        · exact hdom p hp hnp r hr
        · simp at hp; subst hp
          exact le_trans (not_lt.mp hacc) (hmle r hr)

theorem topkFold_inv (xs : List (α × Nat)) : ∀ st processed, TopkInv st processed →
    TopkInv (xs.foldl topkStep st) (processed ++ xs) := by
  induction xs with
  | nil => intro st pr h; simpa using h
  | cons x xs ih =>
    intro st pr h
    have h3 := ih _ _ (topkStep_inv x h)
    rw [List.append_assoc] at h3
    simpa [List.foldl_cons] using h3

theorem topkFold_length (xs : List (α × Nat)) : ∀ st : List (α × Nat),
    st.length ≤ max_n_models_to_plot →
    (xs.foldl topkStep st).length = min (st.length + xs.length) max_n_models_to_plot := by
  induction xs with
  | nil => intro st h; simp; omega
  | cons x xs ih =>
    intro st h
    have hstep : (topkStep st x).length = min (st.length + 1) max_n_models_to_plot := by
      unfold topkStep
      by_cases hlt : st.length < max_n_models_to_plot
      · rw [if_pos hlt]; simp; omega
      · rw [if_neg hlt]
        have hK : st.length = max_n_models_to_plot := le_antisymm h (not_lt.mp hlt)
        rcases hm : lexMin st with _ | m
        · rw [lexMin_eq_none.mp hm] at hK
          simp [max_n_models_to_plot] at hK
        · simp only [hm]
          by_cases hacc : m.1 < x.1
          · rw [if_pos hacc]
            have := removeFirst_length (lexMin_mem hm)
            simp; omega
          · rw [if_neg hacc]; omega
    rw [List.foldl_cons, ih _ (by omega), hstep]
    simp; omega

end Ein

/-- C8: folding any sequence of more than 20 accepted models through the
heap update of `callback` (ein.py lines 111-117) leaves exactly 20 retained
models, and every processed model that is not retained (evicted or refused
entry) has a maximum log-likelihood score no greater than that of every
retained model. -/
theorem c8_top_k_bound {α : Type} [LinearOrder α] (models : List (α × Nat))
    (h : Ein.max_n_models_to_plot < models.length) :
    (Ein.topkFold models).length = Ein.max_n_models_to_plot ∧
    ∀ p ∈ models, p ∉ Ein.topkFold models → ∀ r ∈ Ein.topkFold models, p.1 ≤ r.1 := by
  constructor
  · have hLen := Ein.topkFold_length models ([] : List (α × Nat)) (by simp)
    unfold Ein.topkFold
    rw [hLen]
    simp
    omega
  · have hInv := Ein.topkFold_inv models [] [] ⟨by simp, by simp, by simp⟩
    simp only [List.nil_append] at hInv
    intro p hp hnp r hr
    exact hInv.2.2 p hp hnp r hr

/-- Witness for C8: 21 models with scores 0..20. -/
theorem c8_top_k_bound_witness :
    Ein.max_n_models_to_plot < topkModels.length ∧
    ((Ein.topkFold topkModels).length = Ein.max_n_models_to_plot ∧
      ∀ p ∈ topkModels, p ∉ Ein.topkFold topkModels →
        ∀ r ∈ Ein.topkFold topkModels, p.1 ≤ r.1) :=
  ⟨by decide, c8_top_k_bound topkModels (by decide)⟩

theorem isOk_exists {ε β : Type} {x : Except ε β} (h : x.isOk = true) : ∃ b, x = .ok b := by
  cases x with
  | ok b => exact ⟨b, rfl⟩
  | error e => simp [Except.isOk, Except.toBool] at h

theorem processLines_ok {σ : Type} (fields : List PyStr) (isExp : Bool)
    (cb : NewFormat.ParsedRun → Option PyStr → σ → σ) (fname : PyStr) :
    ∀ (lines : List PyStr) (ln : Nat) (mal : Int) (acc : σ)
      (ecc : List (PyStr × PyStr)) (log : List Nat),
    (∀ l ∈ lines, pyStartsWith "[ECC]".data l = true → (pyJsonLoads (l.drop 6)).isOk = true) →
    ((mal = -1 ∧ log.length = 0) ∨ (mal ≠ -1 ∧ log.length = 1)) →
    ∃ out, NewFormat.processLines fields isExp cb fname lines ln mal acc ecc log =
        Except.ok out ∧ out.2.2.length ≤ 1 := by
  intro lines
  induction lines with
  | nil =>
    intro ln mal acc ecc log hgood hlog
    refine ⟨(acc, ecc, log), rfl, ?_⟩
    show log.length ≤ 1
    rcases hlog with ⟨_, h⟩ | ⟨_, h⟩ <;> omega
  | cons line rest ih =>
    intro ln mal acc ecc log hgood hlog
    have hgood' : ∀ l ∈ rest, pyStartsWith "[ECC]".data l = true →
        (pyJsonLoads (l.drop 6)).isOk = true :=
      fun l hl => hgood l (List.mem_cons_of_mem _ hl)
    have hmal1 : ((ln + 1 : Nat) : Int) ≠ -1 := by omega
    have hl0 : mal = -1 → log.length = 0 := fun hm => by
      rcases hlog with ⟨_, h⟩ | ⟨hne, _⟩
      · exact h
      · exact absurd hm hne
    have hl1 : mal ≠ -1 → log.length = 1 := fun hm => by
      rcases hlog with ⟨he, _⟩ | ⟨_, h⟩
      · exact absurd he hm
      · exact h
    unfold NewFormat.processLines
    rcases hp : NewFormat.parse_einsim_output_line line fields isExp with pe | po
    · -- the per-line handler: a parse exception other than KeyboardInterrupt
      -- is logged (at most once per file) and skipped
      by_cases hecc : pyStartsWith "[ECC]".data line = true
      · obtain ⟨j, hj⟩ := isOk_exists (hgood line (List.mem_cons_self _ _) hecc)
        by_cases hmal : mal = -1
        · cases pe <;>
            simp only [hp, Except.mapError, PyErr.ofParseErr, hecc, hj, if_pos hmal, if_true,
              reduceCtorEq, reduceIte] <;>
            exact ih (ln + 1) ((ln + 1 : Nat) : Int) acc (alSet ecc fname j) (log ++ [ln + 1])
              hgood' (Or.inr ⟨hmal1, by simp [hl0 hmal]⟩)
        · cases pe <;>
            simp only [hp, Except.mapError, PyErr.ofParseErr, hecc, hj, if_neg hmal, if_true,
              reduceCtorEq, reduceIte] <;>
            exact ih (ln + 1) mal acc (alSet ecc fname j) log hgood'
              (Or.inr ⟨hmal, hl1 hmal⟩)
      · rw [Bool.not_eq_true] at hecc
        by_cases hmal : mal = -1
        · cases pe <;>
            simp only [hp, Except.mapError, PyErr.ofParseErr, hecc, if_pos hmal,
              Bool.false_eq_true, if_false, reduceCtorEq, reduceIte] <;>
            exact ih (ln + 1) ((ln + 1 : Nat) : Int) acc ecc (log ++ [ln + 1]) hgood'
              (Or.inr ⟨hmal1, by simp [hl0 hmal]⟩)
        · cases pe <;>
            simp only [hp, Except.mapError, PyErr.ofParseErr, hecc, if_neg hmal,
              Bool.false_eq_true, if_false, reduceCtorEq, reduceIte] <;>
            exact ih (ln + 1) mal acc ecc log hgood'
              (Or.inr ⟨hmal, hl1 hmal⟩)
    · rcases po with _ | r
      · by_cases hecc : pyStartsWith "[ECC]".data line = true
        · obtain ⟨j, hj⟩ := isOk_exists (hgood line (List.mem_cons_self _ _) hecc)
          simp only [hp, Except.mapError, hecc, hj, if_true, reduceIte]
          exact ih (ln + 1) mal acc (alSet ecc fname j) log hgood' hlog
        · rw [Bool.not_eq_true] at hecc
          simp only [hp, Except.mapError, hecc, Bool.false_eq_true, if_false, reduceIte]
          exact ih (ln + 1) mal acc ecc log hgood' hlog
      · simp only [hp, Except.mapError]
        exact ih (ln + 1) mal (cb r none acc) ecc log hgood' hlog

theorem pfiStep_ok {σ : Type} (fields : List PyStr) (isExp : Bool)
    (cb : NewFormat.ParsedRun → Option PyStr → σ → σ)
    (st : σ × List (PyStr × PyStr) × List (List Nat)) (f : PyStr × List PyStr)
    (hgoodf : ∀ l ∈ f.2, pyStartsWith "[ECC]".data l = true →
      (pyJsonLoads (l.drop 6)).isOk = true)
    (hlogs : ∀ lg ∈ st.2.2, lg.length ≤ 1) :
    ∃ out, NewFormat.pfiStep fields isExp cb st f = Except.ok out ∧
      ∀ lg ∈ out.2.2, lg.length ≤ 1 := by
  obtain ⟨acc, ecc, logs⟩ := st
  obtain ⟨out1, hout1, hlen1⟩ := processLines_ok fields isExp cb f.1 f.2 0 (-1) acc ecc []
    hgoodf (Or.inl ⟨rfl, rfl⟩)
  obtain ⟨acc', ecc', log'⟩ := out1
  refine ⟨(acc', ecc', logs ++ [log']), ?_, ?_⟩
  · unfold NewFormat.pfiStep
    simp only [hout1, except_bind_ok]
    rfl
  · intro lg hlg
    rcases List.mem_append.mp hlg with h | h
    · exact hlogs lg h
    · simp at h
      subst h
      exact hlen1

theorem pfi_loop_ok {σ : Type} (fields : List PyStr) (isExp : Bool)
    (cb : NewFormat.ParsedRun → Option PyStr → σ → σ) :
    ∀ (files : List (PyStr × List PyStr)) (st : σ × List (PyStr × PyStr) × List (List Nat)),
    (∀ f ∈ files, ∀ l ∈ f.2, pyStartsWith "[ECC]".data l = true →
      (pyJsonLoads (l.drop 6)).isOk = true) →
    (∀ lg ∈ st.2.2, lg.length ≤ 1) →
    ∃ out, List.foldlM (NewFormat.pfiStep fields isExp cb) st files = Except.ok out ∧
      ∀ lg ∈ out.2.2, lg.length ≤ 1 := by
  intro files
  induction files with
  | nil => intro st hg hl; exact ⟨st, rfl, hl⟩
  | cons f fs ih =>
    intro st hg hl
    obtain ⟨out1, h1, hl1⟩ := pfiStep_ok fields isExp cb st f
      (hg f (List.mem_cons_self _ _)) hl
    obtain ⟨out2, h2, hl2⟩ := ih out1 (fun g hgm => hg g (List.mem_cons_of_mem _ hgm)) hl1
    refine ⟨out2, ?_, hl2⟩
    rw [List.foldlM_cons, h1, except_bind_ok, h2]

/-- C7 counterexample: one malformed `[ECC]` side-channel line aborts the
whole streaming reduction — `json.loads` on line 400 of
`src/script/utils/utils.py` sits outside the per-line `try`, so its decode
error propagates instead of being logged and skipped. -/
theorem c7_ecc_json_aborts :
    NewFormat.parse_files_incremental [("f".data, ["[ECC] \x7b".data])] false [] cbCount 0 =
      Except.error PyErr.jsonDecodeError := by
  decide

/-- C7 (amended): any exception raised by `parse_einsim_output_line` on a
line is logged at most once per file and processing continues with the next
line — provided every `[ECC]` line's JSON payload decodes, the reducer never
aborts and each file's warning log has at most one entry.  Malformed JSON on
an `[ECC]` line, by contrast, propagates and aborts processing (see the
counterexample). -/
theorem c7_parse_errors_contained {σ : Type} (files : List (PyStr × List PyStr))
    (is_experimental : Bool) (fields : List PyStr)
    (cb : NewFormat.ParsedRun → Option PyStr → σ → σ) (acc0 : σ)
    (hgood : ∀ f ∈ files, ∀ l ∈ f.2, pyStartsWith "[ECC]".data l = true →
      (pyJsonLoads (l.drop 6)).isOk = true) :
    ∃ out, NewFormat.parse_files_incremental files is_experimental fields cb acc0 =
        Except.ok out ∧ ∀ lg ∈ out.2.2, lg.length ≤ 1 := by
  unfold NewFormat.parse_files_incremental
  exact pfi_loop_ok fields is_experimental cb files (acc0, [], []) hgood (by simp)

/-- Witness for C7: a file with two malformed record lines and a valid
`[ECC]` line is fully processed with exactly one logged warning. -/
theorem c7_parse_errors_contained_witness :
    (∀ f ∈ c7Files, ∀ l ∈ f.2, pyStartsWith "[ECC]".data l = true →
      (pyJsonLoads (l.drop 6)).isOk = true) ∧
    (∃ out, NewFormat.parse_files_incremental c7Files false [] cbCount 0 =
        Except.ok out ∧ ∀ lg ∈ out.2.2, lg.length ≤ 1) :=
  ⟨by decide, c7_parse_errors_contained c7Files false [] cbCount 0 (by decide)⟩

end EINSim
